import Mathlib

/-!
Verification of the trend-analysis and temperature-forecasting core of the
Weather-Predictor repository (`src/predictor.py`, class `WeatherPredictor`).

The two operations are embedded shallowly:

* `predict_temperature_trend` — ordinary least-squares linear regression of the
  temperature samples against their indices `0, 1, 2, …` (the mathematical
  content of `sklearn.linear_model.LinearRegression.fit` on `X = arange(n)`),
  extrapolated `hours_ahead` steps, with `model.score`'s coefficient of
  determination as the confidence.  Numbers are embedded as rationals; the
  `try/except` block of the source is embedded by an `Option`-valued body
  (`none` = an exception inside the block) whose failure the wrapper maps to
  `([], 0)`.  The block has two failure points: `model.fit` on a degenerate
  design (`Σ (xᵢ - x̄)² = 0`), and `model.predict` on the future index array
  `np.arange(n, n + hours_ahead)`, which for `hours_ahead ≤ 0` is a 0-sample
  array on which scikit-learn's input validation (`check_array` with
  `ensure_min_samples=1`) raises `ValueError`.
* `analyze_weather_patterns` — trend classification, rain statistics and
  dominant condition over a list of observations (the rows of the pandas
  DataFrame).  The pandas reductions `mean`, `max`, `nunique` and
  `mode().iloc[0]` are embedded by their documented semantics; in particular
  `Series.mode` returns the most frequent values *in sorted order*, so
  `.iloc[0]` is the least most-frequent value.  `iloc` on an empty frame
  raises, so the embedding returns `Option` with `none` exactly on the empty
  series.
-/

namespace WeatherPredictor

/-- The regression inputs `X = np.arange(n)` as rationals. -/
def idxList (n : ℕ) : List ℚ :=
  (List.range n).map (fun i : ℕ => (i : ℚ))

/-- Arithmetic mean of a list of rationals (`Series.mean`); `0` on the empty
list (division by zero). -/
def mean (l : List ℚ) : ℚ :=
  l.sum / (l.length : ℚ)

/-- Centred second moment `Σᵢ (xᵢ - x̄)²` of the indices `0, …, n-1`. -/
def sxx (n : ℕ) : ℚ :=
  ((idxList n).map (fun x => (x - mean (idxList n)) ^ 2)).sum

/-- Centred mixed moment `Σᵢ (xᵢ - x̄)(yᵢ - ȳ)` of the indices against `ys`. -/
def sxy (ys : List ℚ) : ℚ :=
  (((idxList ys.length).zip ys).map
      (fun p => (p.1 - mean (idxList ys.length)) * (p.2 - mean ys))).sum

/-- Least-squares fit of `ys` against indices `0, …, n-1`: the unique
`(slope, intercept)` minimising the sum of squared residuals, computed by the
standard centred normal equations (what `LinearRegression.fit` computes).
Fails (`none`) when the design is degenerate, i.e. `Σ (xᵢ - x̄)² = 0`. -/
def fitLine (ys : List ℚ) : Option (ℚ × ℚ) :=
  if sxx ys.length = 0 then none
  else
    let slope := sxy ys / sxx ys.length
    some (slope, mean ys - slope * mean (idxList ys.length))

/-- Residual sum of squares of the line `y = m·x + b` over the samples. -/
def ssres (ys : List ℚ) (m b : ℚ) : ℚ :=
  (((idxList ys.length).zip ys).map (fun p => (p.2 - (m * p.1 + b)) ^ 2)).sum

/-- Total sum of squares of the samples about their mean. -/
def sstot (ys : List ℚ) : ℚ :=
  (ys.map (fun y => (y - mean ys) ^ 2)).sum

/-- Coefficient of determination of the fitted line `y = m·x + b` over the
training samples (`model.score(X, y)`): `1 - SSres/SStot`, with sklearn's
convention for a constant target (`SStot = 0`): `1` when the residuals also
vanish, else `0`. -/
def rsq (ys : List ℚ) (m b : ℚ) : ℚ :=
  if sstot ys = 0 then (if ssres ys m b = 0 then 1 else 0)
  else 1 - ssres ys m b / sstot ys

/-- The coefficient of determination of the least-squares fit of `ys`, read
through `fitLine` (`0` when the fit fails). -/
def rsquaredOfFit (ys : List ℚ) : ℚ :=
  match fitLine ys with
  | none => 0
  | some (m, b) => rsq ys m b

/-- The body of the `try:` block of `predict_temperature_trend`: fit the
line, evaluate it at the indices `np.arange(n, n + hours_ahead)`
(`n, …, n + hours_ahead - 1`), and score the fit.  `none` embeds an exception
raised inside the block: either `model.fit` on a degenerate design, or
`model.predict` when `hours_ahead ≤ 0` — then `future_X` is a 0-sample array
and scikit-learn's `check_array` (`ensure_min_samples=1`) raises
`ValueError`. -/
def predictBody (temps : List ℚ) (hours_ahead : ℤ) : Option (List ℚ × ℚ) :=
  (fitLine temps).bind (fun mb =>
    if hours_ahead ≤ 0 then none
    else
      some ((List.range hours_ahead.toNat).map
          (fun k : ℕ => mb.1 * ((temps.length : ℚ) + (k : ℚ)) + mb.2),
        rsq temps mb.1 mb.2))

/-- `WeatherPredictor.predict_temperature_trend` (src/predictor.py, lines
8–26): fewer than 3 samples yield `([], 0)`; otherwise the `try:` body runs
and any failure is caught and mapped to `([], 0)`. -/
def predict_temperature_trend (temps : List ℚ) (hours_ahead : ℤ) :
    List ℚ × ℚ :=
  if temps.length < 3 then ([], 0)
  else
    match predictBody temps hours_ahead with
    | some r => r
    | none => ([], 0)

/-- One row of the forecast DataFrame handed to `analyze_weather_patterns`:
the columns the analyzer reads. -/
structure Observation where
  temperature : ℚ
  pop : ℚ
  weather_main : String
deriving DecidableEq, Repr

/-- Result dictionary of `analyze_weather_patterns`, with its five keys. -/
structure WeatherAnalysis where
  temp_trend : String
  rain_likelihood : ℚ
  max_rain_prob : ℚ
  weather_types : ℕ
  dominant_weather : String
deriving DecidableEq, Repr

/-- Lines 33–38 of src/predictor.py: `'stable'` by default, overridden to
`'warming'` when `temp_diff > 2` and to `'cooling'` when `temp_diff < -2`. -/
def tempTrendOf (temp_diff : ℚ) : String :=
  if 2 < temp_diff then "warming"
  else if temp_diff < -2 then "cooling"
  else "stable"

/-- The distinct values of `conds` whose number of occurrences is maximal:
the value set of `Series.mode` (pandas keeps every tied value). -/
def modeCandidates (conds : List String) : List String :=
  conds.dedup.filter
    (fun v => decide (∀ u ∈ conds.dedup, conds.count u ≤ conds.count v))

/-- `Series.mode().iloc[0]`: pandas returns the modes in (lexicographically)
sorted order, so `.iloc[0]` is the least most-frequent value.  The `""`
branch is unreachable for a non-empty series. -/
def seriesModeHead (conds : List String) : String :=
  match modeCandidates conds with
  | [] => ""
  | x :: xs => xs.foldl min x

/-- `WeatherPredictor.analyze_weather_patterns` (src/predictor.py, lines
29–48) on the non-empty series `first :: rest`:
`temp_trend` from the last-minus-first temperature difference,
`rain_likelihood = df['pop'].mean()`, `max_rain_prob = df['pop'].max()`,
`weather_types = df['weather_main'].nunique()`,
`dominant_weather = df['weather_main'].mode().iloc[0]`. -/
def analyzeObs (first : Observation) (rest : List Observation) :
    WeatherAnalysis :=
  { temp_trend :=
      tempTrendOf ((rest.getLastD first).temperature - first.temperature)
    rain_likelihood := mean ((first :: rest).map (fun o => o.pop))
    max_rain_prob := rest.foldl (fun m o => max m o.pop) first.pop
    weather_types := ((first :: rest).map (fun o => o.weather_main)).dedup.length
    dominant_weather :=
      seriesModeHead ((first :: rest).map (fun o => o.weather_main)) }

/-- `analyze_weather_patterns` on an arbitrary series: `df.iloc[-1]` and
`df.iloc[0]` raise `IndexError` on an empty frame, embedded as `none`. -/
def analyze_weather_patterns (df : List Observation) :
    Option WeatherAnalysis :=
  match df with
  | [] => none
  | first :: rest => some (analyzeObs first rest)

/-- Modelled from the spec: the tie-break rule the spec asserts for the
dominant condition — among the values with maximal occurrence count, the one
encountered first in input order. -/
def firstEncounteredMode (conds : List String) : Option String :=
  conds.find? (fun v => decide (∀ u ∈ conds, conds.count u ≤ conds.count v))

/-!  ### Helper lemmas about the regression -/

lemma length_idxList (n : ℕ) : (idxList n).length = n := by
  unfold idxList
  rw [List.length_map, List.length_range]

lemma mem_idxList_cast {n i : ℕ} (h : i < n) : ((i : ℕ) : ℚ) ∈ idxList n := by
  unfold idxList
  exact List.mem_map.2 ⟨i, List.mem_range.2 h, rfl⟩

lemma idxList_nonneg {n : ℕ} : ∀ x ∈ idxList n, (0 : ℚ) ≤ x := by
  unfold idxList
  intro x hx
  obtain ⟨i, _, hi⟩ := List.mem_map.1 hx
  rw [← hi]
  exact Nat.cast_nonneg i

lemma mean_idxList_pos {n : ℕ} (h : 2 ≤ n) : 0 < mean (idxList n) := by
  have h1 : (1 : ℚ) ≤ (idxList n).sum := by
    have hm : ((1 : ℕ) : ℚ) ∈ idxList n := mem_idxList_cast (by omega)
    have := List.single_le_sum idxList_nonneg _ hm
    simpa using this
  have hn : (0 : ℚ) < ((idxList n).length : ℚ) := by
    rw [length_idxList]
    exact_mod_cast (by omega : 0 < n)
  exact div_pos (by linarith) hn

lemma sxx_pos {n : ℕ} (h : 2 ≤ n) : 0 < sxx n := by
  have hx := mean_idxList_pos h
  have h0 : ((0 : ℕ) : ℚ) ∈ idxList n := mem_idxList_cast (by omega)
  have hmem : (((0 : ℕ) : ℚ) - mean (idxList n)) ^ 2 ∈
      (idxList n).map (fun x => (x - mean (idxList n)) ^ 2) :=
    List.mem_map.2 ⟨((0 : ℕ) : ℚ), h0, rfl⟩
  have hnn : ∀ y ∈ (idxList n).map (fun x => (x - mean (idxList n)) ^ 2),
      (0 : ℚ) ≤ y := by
    intro y hy
    obtain ⟨x, _, hxeq⟩ := List.mem_map.1 hy
    rw [← hxeq]
    positivity
  have hle := List.single_le_sum hnn _ hmem
  have hsq : (0 : ℚ) < (((0 : ℕ) : ℚ) - mean (idxList n)) ^ 2 := by
    have heq : (((0 : ℕ) : ℚ) - mean (idxList n)) ^ 2 = mean (idxList n) ^ 2 := by
      push_cast
      ring
    rw [heq]
    exact pow_pos hx 2
  unfold sxx
  linarith

lemma fitLine_eq_some {ys : List ℚ} (h : 2 ≤ ys.length) :
    fitLine ys = some (sxy ys / sxx ys.length,
      mean ys - sxy ys / sxx ys.length * mean (idxList ys.length)) := by
  unfold fitLine
  rw [if_neg (ne_of_gt (sxx_pos h))]

lemma fitLine_isSome {ys : List ℚ} (h : 2 ≤ ys.length) :
    (fitLine ys).isSome := by
  rw [fitLine_eq_some h]
  rfl

/-!  ### Helper lemmas about the analyzer -/

lemma exists_count_argmax {α : Type} (f : α → ℕ) :
    ∀ (l : List α), l ≠ [] → ∃ a ∈ l, ∀ b ∈ l, f b ≤ f a := by
  intro l
  induction l with
  | nil => intro h; exact absurd rfl h
  | cons a t ih =>
    intro _
    cases t with
    | nil =>
      refine ⟨a, List.mem_cons_self a [], ?_⟩
      intro b hb
      rcases List.mem_cons.1 hb with rfl | hb
      · exact le_refl _
      · exact absurd hb (List.not_mem_nil b)
    | cons c s =>
      obtain ⟨m, hm, hmax⟩ := ih (by simp)
      rcases le_total (f a) (f m) with h1 | h1
      · refine ⟨m, List.mem_cons_of_mem _ hm, ?_⟩
        intro b hb
        rcases List.mem_cons.1 hb with rfl | hb
        · exact h1
        · exact hmax b hb
      · refine ⟨a, List.mem_cons_self _ _, ?_⟩
        intro b hb
        rcases List.mem_cons.1 hb with rfl | hb
        · exact le_refl _
        · exact le_trans (hmax b hb) h1

lemma mem_modeCandidates_iff {conds : List String} {v : String} :
    v ∈ modeCandidates conds ↔
      v ∈ conds.dedup ∧ ∀ u ∈ conds.dedup, conds.count u ≤ conds.count v := by
  simp [modeCandidates]

lemma modeCandidates_ne_nil {conds : List String} (h : conds ≠ []) :
    modeCandidates conds ≠ [] := by
  have hd : conds.dedup ≠ [] := by
    cases conds with
    | nil => exact absurd rfl h
    | cons c cs =>
      exact List.ne_nil_of_mem (List.mem_dedup.2 (List.mem_cons_self c cs))
  obtain ⟨v, hv, hmax⟩ := exists_count_argmax (fun u => conds.count u) _ hd
  exact List.ne_nil_of_mem (mem_modeCandidates_iff.2 ⟨hv, hmax⟩)

lemma foldl_min_mem {α : Type} [LinearOrder α] :
    ∀ (l : List α) (a : α), l.foldl min a = a ∨ l.foldl min a ∈ l := by
  intro l
  induction l with
  | nil => intro a; exact Or.inl rfl
  | cons b t ih =>
    intro a
    rw [List.foldl_cons]
    rcases ih (min a b) with h | h
    · rcases min_choice a b with hm | hm
      · exact Or.inl (h.trans hm)
      · exact Or.inr (List.mem_cons.2 (Or.inl (h.trans hm)))
    · exact Or.inr (List.mem_cons.2 (Or.inr h))

lemma foldl_min_le {α : Type} [LinearOrder α] :
    ∀ (l : List α) (a : α),
      l.foldl min a ≤ a ∧ ∀ x ∈ l, l.foldl min a ≤ x := by
  intro l
  induction l with
  | nil =>
    intro a
    exact ⟨le_refl a, fun x hx => absurd hx (List.not_mem_nil x)⟩
  | cons b t ih =>
    intro a
    rw [List.foldl_cons]
    obtain ⟨h1, h2⟩ := ih (min a b)
    refine ⟨le_trans h1 (min_le_left a b), ?_⟩
    intro x hx
    rcases List.mem_cons.1 hx with rfl | hx
    · exact le_trans h1 (min_le_right a x)
    · exact h2 x hx

lemma foldl_max_mem {α : Type} [LinearOrder α] :
    ∀ (l : List α) (a : α), l.foldl max a = a ∨ l.foldl max a ∈ l := by
  intro l
  induction l with
  | nil => intro a; exact Or.inl rfl
  | cons b t ih =>
    intro a
    rw [List.foldl_cons]
    rcases ih (max a b) with h | h
    · rcases max_choice a b with hm | hm
      · exact Or.inl (h.trans hm)
      · exact Or.inr (List.mem_cons.2 (Or.inl (h.trans hm)))
    · exact Or.inr (List.mem_cons.2 (Or.inr h))

lemma le_foldl_max {α : Type} [LinearOrder α] :
    ∀ (l : List α) (a : α),
      a ≤ l.foldl max a ∧ ∀ x ∈ l, x ≤ l.foldl max a := by
  intro l
  induction l with
  | nil =>
    intro a
    exact ⟨le_refl a, fun x hx => absurd hx (List.not_mem_nil x)⟩
  | cons b t ih =>
    intro a
    rw [List.foldl_cons]
    obtain ⟨h1, h2⟩ := ih (max a b)
    refine ⟨le_trans (le_max_left a b) h1, ?_⟩
    intro x hx
    rcases List.mem_cons.1 hx with rfl | hx
    · exact le_trans (le_max_right a x) h1
    · exact h2 x hx

lemma tempTrendOf_warming {x : ℚ} (h : 2 < x) : tempTrendOf x = "warming" := by
  unfold tempTrendOf
  rw [if_pos h]

lemma tempTrendOf_cooling {x : ℚ} (h : x < -2) : tempTrendOf x = "cooling" := by
  unfold tempTrendOf
  rw [if_neg (by linarith), if_pos h]

lemma tempTrendOf_stable {x : ℚ} (h1 : -2 ≤ x) (h2 : x ≤ 2) :
    tempTrendOf x = "stable" := by
  unfold tempTrendOf
  rw [if_neg (by linarith), if_neg (by linarith)]

/-- The head of the sorted mode list of a non-empty series is a most frequent
value, and among the most frequent values it is the least. -/
lemma seriesModeHead_spec (conds : List String) (hne : conds ≠ []) :
    seriesModeHead conds ∈ conds ∧
      (∀ u ∈ conds, conds.count u ≤ conds.count (seriesModeHead conds)) ∧
      (∀ v ∈ conds, conds.count v = conds.count (seriesModeHead conds) →
        seriesModeHead conds ≤ v) := by
  cases hL : modeCandidates conds with
  | nil => exact absurd hL (modeCandidates_ne_nil hne)
  | cons x xs =>
    have hd : seriesModeHead conds = xs.foldl min x := by
      rw [seriesModeHead, hL]
    have hmemL : seriesModeHead conds ∈ modeCandidates conds := by
      rw [hL, hd]
      rcases foldl_min_mem xs x with h | h
      · exact List.mem_cons.2 (Or.inl h)
      · exact List.mem_cons.2 (Or.inr h)
    obtain ⟨hdedup, hmax⟩ := mem_modeCandidates_iff.1 hmemL
    have hmax' : ∀ u ∈ conds, conds.count u ≤ conds.count (seriesModeHead conds) :=
      fun u hu => hmax u (List.mem_dedup.2 hu)
    refine ⟨List.mem_dedup.1 hdedup, hmax', ?_⟩
    intro v hv hcnt
    have hvL : v ∈ modeCandidates conds :=
      mem_modeCandidates_iff.2 ⟨List.mem_dedup.2 hv,
        fun u hu => hcnt ▸ hmax u hu⟩
    rw [hL] at hvL
    rw [hd]
    rcases List.mem_cons.1 hvL with rfl | hvxs
    · exact (foldl_min_le xs v).1
    · exact (foldl_min_le xs x).2 v hvxs

/-!  ### Theorems  -/

/-- C1.  On the temperatures `[0, 1, 2, 3]` with horizon `2`, the samples lie
exactly on a line, and `predict_temperature_trend` returns the predictions
`[4, 5]` with confidence `1`. -/
theorem predict_exact_linear_fit :
    predict_temperature_trend [0, 1, 2, 3] 2 = ([4, 5], 1) := by
  norm_num [predict_temperature_trend, predictBody, fitLine, sxx, sxy, idxList,
    mean, ssres, sstot, rsq, show (2 : Int).toNat = 2 from rfl, List.range_succ]

/-- C4.  With fewer than 3 temperature samples, `predict_temperature_trend`
returns the empty prediction list and confidence `0` for every horizon; in
particular on `[5, 6]` with horizon `24`. -/
theorem predict_insufficient_data :
    (∀ (temps : List ℚ) (h : ℤ), temps.length < 3 →
      predict_temperature_trend temps h = ([], 0)) ∧
    predict_temperature_trend [5, 6] 24 = ([], 0) := by
  refine ⟨fun temps h hlen => ?_, by decide⟩
  simp [predict_temperature_trend, hlen]

/-- Witness for C4: the universally quantified part applied at `[9]`,
horizon `7`. -/
theorem predict_insufficient_data_witness :
    predict_temperature_trend [9] 7 = ([], 0) :=
  predict_insufficient_data.1 [9] 7 (by decide)

/-- C5 (counterexample).  At the temperatures `[0, 1, 2]` (so the fit
succeeds) and horizon `-1`, `model.predict` fails on the empty future array,
the `except` returns `([], 0)`, and the prediction list's length `0` is not
the horizon `-1`. -/
theorem predict_horizon_length_counterexample :
    (fitLine [0, 1, 2]).isSome ∧
      ((predict_temperature_trend [0, 1, 2] (-1)).1.length : ℤ) ≠ -1 := by
  constructor
  · exact fitLine_isSome (by norm_num)
  · norm_num [predict_temperature_trend, predictBody, fitLine, sxx, sxy,
      idxList, mean, List.range_succ]

/-- C5 (amended).  For at least 3 samples, a *non-negative* horizon and a
successful fit, the prediction list is exactly the fitted line evaluated at
the indices `len, …, len + horizon - 1`; in particular its length is the
horizon.  (At horizon `0` both sides are empty: there the result comes from
the `except` path, since `model.predict` raises on a 0-sample array.) -/
theorem predict_horizon_length (temps : List ℚ) (h : ℤ) (m b : ℚ)
    (hlen : 3 ≤ temps.length) (hh : 0 ≤ h)
    (hfit : fitLine temps = some (m, b)) :
    (predict_temperature_trend temps h).1 =
      (List.range h.toNat).map
        (fun k : ℕ => m * ((temps.length : ℚ) + (k : ℚ)) + b) ∧
    ((predict_temperature_trend temps h).1.length : ℤ) = h := by
  have hnot : ¬ temps.length < 3 := by omega
  have hfst : (predict_temperature_trend temps h).1 =
      (List.range h.toNat).map
        (fun k : ℕ => m * ((temps.length : ℚ) + (k : ℚ)) + b) := by
    rcases lt_or_eq_of_le hh with hpos | hzero
    · have hif : ¬ h ≤ 0 := by omega
      simp [predict_temperature_trend, predictBody, hfit, hnot, hif]
    · rw [← hzero]
      simp [predict_temperature_trend, predictBody, hfit, hnot]
  refine ⟨hfst, ?_⟩
  rw [hfst, List.length_map, List.length_range, Int.toNat_of_nonneg hh]

/-- Witness for C5 (amended): `[0, 1, 2]` with horizon `2` and the fit
`y = x`. -/
theorem predict_horizon_length_witness :
    fitLine [0, 1, 2] = some (1, 0) ∧
      ((predict_temperature_trend [0, 1, 2] 2).1.length : ℤ) = 2 := by
  have hfit : fitLine ([0, 1, 2] : List ℚ) = some (1, 0) := by
    norm_num [fitLine, sxx, sxy, idxList, mean, List.range_succ]
  exact ⟨hfit,
    (predict_horizon_length [0, 1, 2] 2 1 0 (by norm_num) (by norm_num)
      hfit).2⟩

/-- C7.  With at least 3 samples, the result of `predict_temperature_trend`
is the result of the `try:` body with a failure (`none`, an exception inside
the block) mapped to `([], 0)`: no failure of the fitting step escapes to the
caller. -/
theorem predict_catches_fit_failure (temps : List ℚ) (h : ℤ)
    (hlen : 3 ≤ temps.length) :
    predict_temperature_trend temps h = (predictBody temps h).getD ([], 0) ∧
      (predictBody temps h = none →
        predict_temperature_trend temps h = ([], 0)) := by
  have hnot : ¬ temps.length < 3 := by omega
  constructor
  · cases hb : predictBody temps h with
    | none => simp [predict_temperature_trend, hnot, hb]
    | some r => simp [predict_temperature_trend, hnot, hb]
  · intro hb
    simp [predict_temperature_trend, hnot, hb]

/-- Witness for C7: at `[1, 2, 3]` with horizon `24` the body succeeds and
its value is returned; at `[0, 1, 2]` with horizon `-5` the body fails
(`model.predict` on a 0-sample array) and the `except` returns `([], 0)`. -/
theorem predict_catches_fit_failure_witness :
    (predict_temperature_trend [1, 2, 3] 24 =
        (predictBody [1, 2, 3] 24).getD ([], 0)) ∧
      predict_temperature_trend [0, 1, 2] (-5) = ([], 0) :=
  ⟨(predict_catches_fit_failure [1, 2, 3] 24 (by norm_num)).1,
    (predict_catches_fit_failure [0, 1, 2] (-5) (by norm_num)).2
      (by norm_num [predictBody, fitLine, sxx, sxy, idxList, mean,
        List.range_succ])⟩

/-- C9 (counterexample).  At `[0, 1, 2]` with horizon `-1` the program
returns `([], 0)` — `model.predict` raises on the empty future array and the
`except` returns confidence `0` — while the R² of the fit over the samples is
`1`, so the returned confidence is *not* the R² of the fit. -/
theorem predict_nonpositive_horizon_counterexample :
    predict_temperature_trend [0, 1, 2] (-1) = ([], 0) ∧
      rsquaredOfFit [0, 1, 2] = 1 ∧ (0 : ℚ) ≠ 1 := by
  refine ⟨?_, ?_, by norm_num⟩
  · norm_num [predict_temperature_trend, predictBody, fitLine, sxx, sxy,
      idxList, mean, List.range_succ]
  · norm_num [rsquaredOfFit, fitLine, sxx, sxy, idxList, mean, rsq, ssres,
      sstot, List.range_succ]

/-- C9 (amended).  With at least 3 samples and a horizon `≤ 0`, the fit
itself succeeds, but `model.predict` fails on the 0-sample future array
(`np.arange(n, n+h)` is empty), so the `try:` body fails and
`predict_temperature_trend` returns `([], 0)`: an empty prediction list from
this path comes with confidence `0`, not the R² of the fit. -/
theorem predict_nonpositive_horizon (temps : List ℚ) (h : ℤ)
    (hlen : 3 ≤ temps.length) (hh : h ≤ 0) :
    (fitLine temps).isSome ∧ predictBody temps h = none ∧
      predict_temperature_trend temps h = ([], 0) := by
  have hfit := fitLine_eq_some (show 2 ≤ temps.length by omega)
  have hnot : ¬ temps.length < 3 := by omega
  have hbody : predictBody temps h = none := by
    simp [predictBody, hfit, hh]
  refine ⟨fitLine_isSome (by omega), hbody, ?_⟩
  simp [predict_temperature_trend, hnot, hbody]

/-- Witness for C9 (amended): `[0, 1, 2]` with horizon `-1`. -/
theorem predict_nonpositive_horizon_witness :
    (3 ≤ ([0, 1, 2] : List ℚ).length) ∧ ((-1 : ℤ) ≤ 0) ∧
      ((fitLine [0, 1, 2]).isSome ∧ predictBody [0, 1, 2] (-1) = none ∧
        predict_temperature_trend [0, 1, 2] (-1) = ([], 0)) :=
  ⟨by norm_num, by norm_num,
    predict_nonpositive_horizon [0, 1, 2] (-1) (by norm_num) (by norm_num)⟩

lemma min_rain_clear : min ("Rain" : String) "Clear" = "Clear" := by
  have h : ¬ ("Rain" : String) ≤ "Clear" := by
    rw [String.le_iff_toList_le]
    decide
  rw [min_def, if_neg h]

/-- On the tied series `Rain, Clear, Rain, Clear` the dominant condition is
`"Clear"`. -/
lemma dominant_of_tied_series :
    (analyzeObs ⟨20, 0, "Rain"⟩
        [⟨21, 0, "Clear"⟩, ⟨22, 0, "Rain"⟩, ⟨23, 0, "Clear"⟩]).dominant_weather
      = "Clear" := by
  show seriesModeHead ((⟨20, 0, "Rain"⟩ ::
    [⟨21, 0, "Clear"⟩, ⟨22, 0, "Rain"⟩, ⟨23, 0, "Clear"⟩]).map
      (fun o : Observation => o.weather_main)) = "Clear"
  have hcand : modeCandidates ((⟨20, 0, "Rain"⟩ ::
      [⟨21, 0, "Clear"⟩, ⟨22, 0, "Rain"⟩, ⟨23, 0, "Clear"⟩]).map
        (fun o : Observation => o.weather_main)) = ["Rain", "Clear"] := by
    decide
  rw [seriesModeHead, hcand]
  show min "Rain" "Clear" = "Clear"
  exact min_rain_clear

/-- C2 (counterexample).  On the series with conditions
`["Rain", "Clear", "Rain", "Clear"]` — an exact tie — the source's
`mode().iloc[0]` yields `"Clear"` (the lexicographically least mode), while
the value encountered first in input order is `"Rain"`. -/
theorem dominant_weather_tiebreak_counterexample :
    (analyzeObs ⟨20, 0, "Rain"⟩
        [⟨21, 0, "Clear"⟩, ⟨22, 0, "Rain"⟩, ⟨23, 0, "Clear"⟩]).dominant_weather
      = "Clear" ∧
    firstEncounteredMode ["Rain", "Clear", "Rain", "Clear"] = some "Rain" ∧
    ("Clear" : String) ≠ "Rain" :=
  ⟨dominant_of_tied_series, by decide, by decide⟩

/-- C2 (amended).  For every non-empty series, `dominant_weather` is a most
frequently occurring condition value, and when several values are tied for
the highest frequency the tie is broken in favour of the lexicographically
smallest of them (pandas sorts the modes). -/
theorem dominant_weather_most_frequent (first : Observation)
    (rest : List Observation) :
    (analyzeObs first rest).dominant_weather ∈
        (first :: rest).map (fun o => o.weather_main) ∧
      (∀ u ∈ (first :: rest).map (fun o => o.weather_main),
        ((first :: rest).map (fun o => o.weather_main)).count u ≤
          ((first :: rest).map (fun o => o.weather_main)).count
            (analyzeObs first rest).dominant_weather) ∧
      (∀ v ∈ (first :: rest).map (fun o => o.weather_main),
        ((first :: rest).map (fun o => o.weather_main)).count v =
            ((first :: rest).map (fun o => o.weather_main)).count
              (analyzeObs first rest).dominant_weather →
          (analyzeObs first rest).dominant_weather ≤ v) := by
  have h := seriesModeHead_spec ((first :: rest).map (fun o => o.weather_main))
    (by simp)
  exact h

/-- Witness for C2 (amended): on the tied series the dominant value
`"Clear"` is `≤ "Rain"`. -/
theorem dominant_weather_most_frequent_witness :
    (analyzeObs ⟨20, 0, "Rain"⟩
        [⟨21, 0, "Clear"⟩, ⟨22, 0, "Rain"⟩, ⟨23, 0, "Clear"⟩]).dominant_weather
      ≤ "Rain" :=
  (dominant_weather_most_frequent ⟨20, 0, "Rain"⟩
      [⟨21, 0, "Clear"⟩, ⟨22, 0, "Rain"⟩, ⟨23, 0, "Clear"⟩]).2.2
    "Rain" (by decide) (by rw [dominant_of_tied_series]; decide)

/-- C3.  The trend is classified from `delta`, the last temperature minus the
first, by strict comparison with `±2`: `delta > 2` gives `"warming"`,
`delta < -2` gives `"cooling"`, and everything in `[-2, 2]` — the boundary
values included — gives `"stable"`. -/
theorem temp_trend_strict_thresholds (first : Observation)
    (rest : List Observation) (d : ℚ)
    (hd : d = (rest.getLastD first).temperature - first.temperature) :
    (2 < d → (analyzeObs first rest).temp_trend = "warming") ∧
      (d < -2 → (analyzeObs first rest).temp_trend = "cooling") ∧
      (-2 ≤ d → d ≤ 2 → (analyzeObs first rest).temp_trend = "stable") ∧
      (d = 2 → (analyzeObs first rest).temp_trend = "stable") ∧
      (d = -2 → (analyzeObs first rest).temp_trend = "stable") := by
  have hproj : (analyzeObs first rest).temp_trend =
      tempTrendOf ((rest.getLastD first).temperature - first.temperature) := rfl
  rw [hproj, ← hd]
  exact ⟨fun h1 => tempTrendOf_warming h1,
    fun h2 => tempTrendOf_cooling h2,
    fun h3 h4 => tempTrendOf_stable h3 h4,
    fun h5 => tempTrendOf_stable (by rw [h5]; norm_num) (le_of_eq h5),
    fun h6 => tempTrendOf_stable (ge_of_eq h6) (by rw [h6]; norm_num)⟩

/-- Witness for C3: a two-element series with `delta = 2` exactly — the
boundary — is classified `"stable"`. -/
theorem temp_trend_strict_thresholds_witness :
    (analyzeObs ⟨0, 0, "Clear"⟩ [⟨2, 0, "Clear"⟩]).temp_trend = "stable" :=
  (temp_trend_strict_thresholds ⟨0, 0, "Clear"⟩ [⟨2, 0, "Clear"⟩] 2
      (by norm_num [List.getLastD])).2.2.2.1 rfl

/-- C6.  `rain_likelihood` is the arithmetic mean of the `pop` column and
`max_rain_prob` is its maximum (it is an element and an upper bound); on the
probabilities `[10, 50, 90]` they are `50` and `90`. -/
theorem rain_stats :
    (∀ (first : Observation) (rest : List Observation),
      (analyzeObs first rest).rain_likelihood =
          ((first :: rest).map (fun o => o.pop)).sum /
            (((first :: rest).length : ℕ) : ℚ) ∧
        (analyzeObs first rest).max_rain_prob ∈
          (first :: rest).map (fun o => o.pop) ∧
        ∀ p ∈ (first :: rest).map (fun o => o.pop),
          p ≤ (analyzeObs first rest).max_rain_prob) ∧
      (analyzeObs ⟨1, 10, "Rain"⟩
          [⟨2, 50, "Rain"⟩, ⟨3, 90, "Rain"⟩]).rain_likelihood = 50 ∧
      (analyzeObs ⟨1, 10, "Rain"⟩
          [⟨2, 50, "Rain"⟩, ⟨3, 90, "Rain"⟩]).max_rain_prob = 90 := by
  refine ⟨fun first rest => ⟨?_, ?_, ?_⟩, ?_, ?_⟩
  · simp [analyzeObs, mean]
  · show rest.foldl (fun m o => max m o.pop) first.pop ∈ _
    have : rest.foldl (fun m o => max m o.pop) first.pop =
        (rest.map (fun o => o.pop)).foldl max first.pop := by
      rw [List.foldl_map]
    rw [this]
    rcases foldl_max_mem (rest.map (fun o => o.pop)) first.pop with h | h
    · rw [h]; simp
    · rw [List.map_cons]
      exact List.mem_cons.2 (Or.inr h)
  · intro p hp
    show p ≤ rest.foldl (fun m o => max m o.pop) first.pop
    have heq : rest.foldl (fun m o => max m o.pop) first.pop =
        (rest.map (fun o => o.pop)).foldl max first.pop := by
      rw [List.foldl_map]
    rw [heq]
    rw [List.map_cons] at hp
    rcases List.mem_cons.1 hp with rfl | hp
    · exact (le_foldl_max (rest.map (fun o => o.pop)) first.pop).1
    · exact (le_foldl_max (rest.map (fun o => o.pop)) first.pop).2 p hp
  · norm_num [analyzeObs, mean]
  · show max (max (10 : ℚ) 50) 90 = 90
    norm_num

/-- Witness for C6: the universal part applied to the `[10, 50, 90]`
series. -/
theorem rain_stats_witness :
    (50 : ℚ) ≤ (analyzeObs ⟨1, 10, "Rain"⟩
      [⟨2, 50, "Rain"⟩, ⟨3, 90, "Rain"⟩]).max_rain_prob :=
  (rain_stats.1 ⟨1, 10, "Rain"⟩ [⟨2, 50, "Rain"⟩, ⟨3, 90, "Rain"⟩]).2.2
    50 (by norm_num)

/-- C8.  `analyze_weather_patterns` returns a full summary on every series
with at least one observation, and no summary — the embedded runtime failure
of `iloc` on an empty frame — on the empty series. -/
theorem analyze_empty_vs_nonempty :
    analyze_weather_patterns [] = none ∧
      ∀ (first : Observation) (rest : List Observation),
        analyze_weather_patterns (first :: rest) = some (analyzeObs first rest) :=
  ⟨rfl, fun _ _ => rfl⟩

/-- Witness for C8: the non-empty part applied to a one-element series. -/
theorem analyze_empty_vs_nonempty_witness :
    analyze_weather_patterns [⟨7, 30, "Snow"⟩] =
      some (analyzeObs ⟨7, 30, "Snow"⟩ []) :=
  analyze_empty_vs_nonempty.2 ⟨7, 30, "Snow"⟩ []

/-- C10.  On a one-observation series the analyzer succeeds with trend
`"stable"`, rain mean and max both the observation's `pop`, one distinct
condition, and that condition dominant. -/
theorem analyze_singleton (o : Observation) :
    analyze_weather_patterns [o] =
      some ⟨"stable", o.pop, o.pop, 1, o.weather_main⟩ := by
  have h0 : (([] : List Observation).getLastD o).temperature - o.temperature
      = 0 := by
    simp [List.getLastD]
  have htrend : tempTrendOf
      ((([] : List Observation).getLastD o).temperature - o.temperature)
      = "stable" := by
    rw [h0]
    norm_num [tempTrendOf]
  have hmean : mean ((o :: ([] : List Observation)).map (fun x => x.pop))
      = o.pop := by
    simp [mean]
  have hmode : seriesModeHead
      ((o :: ([] : List Observation)).map (fun x => x.weather_main))
      = o.weather_main := by
    have hcand : modeCandidates [o.weather_main] = [o.weather_main] := by
      simp [modeCandidates]
    simp [seriesModeHead, hcand]
  simp only [analyze_weather_patterns, Option.some.injEq]
  unfold analyzeObs
  rw [htrend, hmean, hmode]
  simp

/-- Witness for C10: a concrete one-observation series. -/
theorem analyze_singleton_witness :
    analyze_weather_patterns [⟨3, 15, "Mist"⟩] =
      some ⟨"stable", 15, 15, 1, "Mist"⟩ :=
  analyze_singleton ⟨3, 15, "Mist"⟩

end WeatherPredictor
